import Mathlib

/-!
Verification of the signal evaluation core of the calmcrypto benchmark.

The embedding models pandas Series as position indexed lists of optional
rationals, where `none` stands for a missing value (NaN).  The reference
price series is modelled as a fully observed list of rationals, matching
how the evaluator receives it.  External statistical primitives that the
source calls into (pandas correlation, numpy log10 and standard deviation,
the statsmodels Granger regression) are modelled as oracle parameters:
they are library code outside this repository, and every claim below is
about the repository logic around them, proved for all oracles.
-/

namespace SignalEval

/-- A pandas Series: position indexed, `none` is a missing value (NaN). -/
abbrev Series := List (Option ℚ)

/-- Value of a series at index `t`; out of range indices are missing. -/
def atIdx (s : Series) (t : ℕ) : Option ℚ :=
  s.getD t none

/-- `price.pct_change()`: first entry missing, then the percentage change
between consecutive prices.  The reference price is fully observed, so no
forward filling is involved. -/
def pctChange (price : List ℚ) : Series :=
  match price with
  | [] => []
  | _ :: _ => none :: (price.zip price.tail).map (fun pc => some ((pc.2 - pc.1) / pc.1))

/-- `s.shift(-p)`: the value at index `t` becomes the value at `t + p`,
missing when that runs off the end — the first `p` entries are dropped
and the tail is padded with missing values, keeping the length. -/
def shiftNeg (p : ℕ) (s : Series) : Series :=
  s.drop p ++ List.replicate (min p s.length) none

/-- `pd.concat([a, b], axis=1).dropna()`: the indexwise pairs where both
series are observed, in index order; indices past the end of either
series have a missing entry and are dropped. -/
def align2 : Series → Series → List (ℚ × ℚ)
  | some x :: a, some y :: b => (x, y) :: align2 a b
  | _ :: a, _ :: b => align2 a b
  | _, _ => []

/-- `np.sign` on a rational. -/
def qsign (q : ℚ) : ℚ :=
  if 0 < q then 1 else if q < 0 then -1 else 0

/-- `np.sign` mapped over a series; the sign of a missing value is missing. -/
def signSeries (s : Series) : Series :=
  s.map (Option.map qsign)

/-- `s.diff()`: difference with the previous entry, missing at index zero
or when either entry is missing. -/
def diffSeries (s : Series) : Series :=
  match s with
  | [] => []
  | _ :: _ => none :: (s.zip s.tail).map (fun p =>
      match p.1, p.2 with
      | some a, some b => some (b - a)
      | _, _ => none)

/-- Mean of the observed entries of a series, missing when none are
observed (pandas `Series.mean`, which skips NaN). -/
def seriesMean (s : Series) : Option ℚ :=
  let v := s.filterMap id
  if v.length = 0 then none else some (v.sum / (v.length : ℚ))

/-! ### Information Coefficient (`metrics/information_coefficient.py`) -/

/-- Oracles for the external statistical primitives used by
`calculate_ic`: pandas Pearson and Spearman correlation, the pandas
rolling correlation series, and the numpy standard deviation (which
involves a square root and so is kept abstract). -/
structure ICOracles where
  pearson : List (ℚ × ℚ) → Option ℚ
  spearman : List (ℚ × ℚ) → Option ℚ
  rollingCorr : List (ℚ × ℚ) → ℕ → Series
  stdev : Series → Option ℚ

/-- `forward_returns.shift(-periods)`, the series `calculate_ic` aligns
with the signal. -/
def fwdReturns (forward_returns : Series) (periods : ℕ) : Series :=
  shiftNeg periods forward_returns

/-- The aligned signal and shifted return pairs inside `calculate_ic`. -/
def icAligned (signal forward_returns : Series) (periods : ℕ) : List (ℚ × ℚ) :=
  align2 signal (fwdReturns forward_returns periods)

/-- Result record of `calculate_ic`. -/
structure ICResult where
  pearson_ic : Option ℚ
  spearman_ic : Option ℚ
  ic_ir : Option ℚ
  ic_mean : Option ℚ
  ic_std : Option ℚ
  rolling_ic : Series
deriving DecidableEq

/-- `calculate_ic` from `metrics/information_coefficient.py`.  With fewer
than `rolling_window` aligned rows it returns the all missing record with
an empty rolling series; otherwise correlations come from the oracles and
the information ratio is `ic_mean / ic_std` guarded by `ic_std > 0`
(`ic_ir` is the float `0`, not NaN, when the guard fails, which is also
what the Python comparison does when `ic_std` is NaN). -/
def calculate_ic (o : ICOracles) (signal forward_returns : Series)
    (periods : ℕ) (rolling_window : ℕ) : ICResult :=
  let aligned := icAligned signal forward_returns periods
  if aligned.length < rolling_window then
    ⟨none, none, none, none, none, []⟩
  else
    let pearson := o.pearson aligned
    let spearman := o.spearman aligned
    let rolling := o.rollingCorr aligned rolling_window
    let m := seriesMean rolling
    let sd := o.stdev rolling
    let icir : Option ℚ :=
      match sd with
      | some s => if 0 < s then m.map (· / s) else some 0
      | none => some 0
    ⟨pearson, spearman, icir, m, sd, rolling⟩

/-- Following the spec words for C2: the realized return of the price
from `t` to `t + periods`. -/
def specRealizedReturn (price : List ℚ) (periods t : ℕ) : Option ℚ :=
  match price.get? t, price.get? (t + periods) with
  | some p0, some p1 => some ((p1 - p0) / p0)
  | _, _ => none

/-! ### Hit rate (`metrics/hit_rate.py`) -/

/-- Indexwise traversal of the two direction series and the next period
return series, keeping the rows where both directions are observed. -/
def dirRows : Series → Series → Series → List (ℚ × ℚ × Option ℚ)
  | some sd :: sds, some ad :: ads, nr :: nrs => (sd, ad, nr) :: dirRows sds ads nrs
  | _ :: sds, _ :: ads, _ :: nrs => dirRows sds ads nrs
  | _, _, _ => []

/-- The aligned rows of `calculate_hit_rate`: sign of the signal change,
sign of the next period return, and the next period return itself (used
only by the optional threshold filter), at every index where the first
two are observed. -/
def alignedDirs (signal returns : Series) : List (ℚ × ℚ × Option ℚ) :=
  dirRows (signSeries (diffSeries signal)) (signSeries (shiftNeg 1 returns))
    (shiftNeg 1 returns)

/-- Result record of `calculate_hit_rate`. -/
structure HitRateResult where
  overall_hit_rate : Option ℚ
  hit_rate_bullish : Option ℚ
  hit_rate_bearish : Option ℚ
  total_signals : ℕ
deriving DecidableEq

/-- `calculate_hit_rate` from `metrics/hit_rate.py`.  Requires at least
ten aligned rows, optionally filters by return magnitude, and reports the
fraction of rows where the predicted sign equals the realized sign,
together with the conditional rates for up and for down predictions. -/
def calculate_hit_rate (signal returns : Series) (threshold : ℚ) : HitRateResult :=
  let aligned := alignedDirs signal returns
  if aligned.length < 10 then
    ⟨none, none, none, 0⟩
  else
    let rows :=
      if 0 < threshold then
        aligned.filter (fun r =>
          match r.2.2 with
          | some v => decide (threshold < |v|)
          | none => false)
      else aligned
    let correct := rows.filter (fun r => decide (r.1 = r.2.1))
    let hit_rate : Option ℚ :=
      if 0 < rows.length then some ((correct.length : ℚ) / (rows.length : ℚ)) else none
    let up := rows.filter (fun r => decide (0 < r.1))
    let down := rows.filter (fun r => decide (r.1 < 0))
    let hit_up : Option ℚ :=
      if 0 < up.length then
        some (((up.filter (fun r => decide (r.1 = r.2.1))).length : ℚ) / (up.length : ℚ))
      else none
    let hit_down : Option ℚ :=
      if 0 < down.length then
        some (((down.filter (fun r => decide (r.1 = r.2.1))).length : ℚ) / (down.length : ℚ))
      else none
    ⟨hit_rate, hit_up, hit_down, rows.length⟩

/-- The contrarian flag computed in `SignalEvaluator.evaluate_signal`:
`hit_rate < 0.5` when the hit rate is observed, `False` when it is NaN. -/
def is_contrarian (hr : Option ℚ) : Bool :=
  match hr with
  | some h => decide (h < 1/2)
  | none => false

/-- The effective hit rate computed in `SignalEvaluator.evaluate_signal`:
`max(hit_rate, 1 - hit_rate)` when observed, `0.5` when NaN. -/
def effective_hit_rate (hr : Option ℚ) : ℚ :=
  match hr with
  | some h => max h (1 - h)
  | none => 1/2

/-! ### Lead-lag analysis (`metrics/lead_lag.py`) -/

/-- Result record of `lead_lag_analysis`. -/
structure LeadLagResult where
  best_lag : ℤ
  best_correlation : Option ℚ
  lead_lag_score : ℚ
  correlation_df : List (ℤ × Option ℚ)
deriving DecidableEq

/-- The aligned indicator and return pairs inside `lead_lag_analysis`. -/
def leadLagAligned (indicator : Series) (price : List ℚ) : List (ℚ × ℚ) :=
  align2 indicator (pctChange price)

/-- The value pairs correlated at a given lag.  After alignment both
columns are plain positional value lists; a positive lag pairs the
indicator shifted back by `lag` with current returns, a negative lag
pairs the indicator with returns shifted by `-lag`, and both cases pair
`ind[j - lag]` with `ret[j]` over the indices where both exist (the
pandas `corr` drops the NaN rows the shift introduces). -/
def pairsAtLag (ind ret : List ℚ) (lag : ℤ) : List (ℚ × ℚ) :=
  if 0 ≤ lag then ind.zip (ret.drop lag.toNat)
  else (ind.drop (-lag).toNat).zip ret

/-- The `(lag, correlation)` table built by the scan over
`range(-max_lag, max_lag + 1)`. -/
def leadLagCorrs (corrFn : List (ℚ × ℚ) → Option ℚ)
    (indicator : Series) (price : List ℚ) (max_lag : ℕ) : List (ℤ × Option ℚ) :=
  let aligned := leadLagAligned indicator price
  let ind := aligned.map Prod.fst
  let ret := aligned.map Prod.snd
  (List.range (2 * max_lag + 1)).map (fun k =>
    let lag : ℤ := (k : ℤ) - (max_lag : ℤ)
    (lag, corrFn (pairsAtLag ind ret lag)))

/-- `df.correlation.abs().idxmax()` followed by the two `loc` reads:
the first entry with the largest absolute correlation, NaN entries
skipped; `none` when every correlation is NaN (where pandas raises). -/
def selectBestAbs (l : List (ℤ × Option ℚ)) : Option (ℤ × ℚ) :=
  l.foldl (fun acc p =>
    match p.2 with
    | none => acc
    | some c =>
      match acc with
      | none => some (p.1, c)
      | some (bl, bc) => if |bc| < |c| then some (p.1, c) else some (bl, bc)) none

/-- `lead_lag_analysis` from `metrics/lead_lag.py`.  `corrFn` is the
pandas correlation oracle.  With fewer than `2 * max_lag` aligned
observations it returns the insufficient data sentinel; when every
correlation in the scan is NaN the `idxmax` call raises, modelled as an
error.  Otherwise the first lag with the largest absolute correlation is
selected (its correlation is then never NaN, so the NaN guards of the
score branches are not reachable) and the score is the branch formula
capped at one. -/
def lead_lag_analysis (corrFn : List (ℚ × ℚ) → Option ℚ)
    (indicator : Series) (price : List ℚ) (max_lag : ℕ) :
    Except String LeadLagResult :=
  let aligned := leadLagAligned indicator price
  if aligned.length < max_lag * 2 then
    .ok ⟨0, none, 0, []⟩
  else
    let corrs := leadLagCorrs corrFn indicator price max_lag
    match selectBestAbs corrs with
    | none => .error "idxmax of an all missing correlation column"
    | some (best_lag, best_correlation) =>
      let lead_score : ℚ :=
        if 0 < best_lag then
          |best_correlation| * (1 + (best_lag : ℚ) / (max_lag : ℚ)) / 2
        else if best_lag = 0 then
          |best_correlation| * (3/10)
        else
          |best_correlation| * (1/10)
      .ok ⟨best_lag, some best_correlation, min lead_score 1, corrs⟩

/-! ### Granger causality (`metrics/granger.py`) -/

/-- Result record of `granger_test`.  The score is rational because the
numpy `log10` is passed in as an oracle. -/
structure GrangerResult where
  best_lag : ℕ
  best_p_value : ℚ
  significant : Bool
  granger_score : ℚ
  all_p_values : List (ℕ × ℚ)
deriving DecidableEq

/-- The insufficient data and exception sentinel of `granger_test`. -/
def grangerSentinel : GrangerResult :=
  ⟨0, 1, false, 0, []⟩

/-- `min(p_values, key=p_values.get)`: the first lag whose p-value is
minimal, keys scanned in insertion order. -/
def argminP (x : ℕ × ℚ) (xs : List (ℕ × ℚ)) : ℕ × ℚ :=
  xs.foldl (fun b a => if a.2 < b.2 then a else b) x

/-- The aligned return and indicator rows inside `granger_test` (the
frame is built as `concat([returns, indicator], axis=1)`). -/
def grangerAligned (indicator : Series) (price : List ℚ) : List (ℚ × ℚ) :=
  align2 (pctChange price) indicator

/-- `granger_test` from `metrics/granger.py`.  `pOracle` is the
statsmodels F-test p-value for a given lag on the aligned frame, and
`log10` is the numpy logarithm.  With fewer than `3 * max_lag` aligned
rows the zero sentinel is returned; a zero `max_lag` makes the
statsmodels call raise, which the `except` branch turns into the same
sentinel shape.  Otherwise the lag with the lowest p-value is selected,
`significant` compares that p-value against the hardcoded `0.05`, and
the score is `min(-log10(p)/2, 1)` for a positive p-value and `1.0`
otherwise. -/
def granger_test (pOracle : List (ℚ × ℚ) → ℕ → ℚ) (log10 : ℚ → ℚ)
    (indicator : Series) (price : List ℚ) (max_lag : ℕ) : GrangerResult :=
  let df := grangerAligned indicator price
  if df.length < max_lag * 3 then
    grangerSentinel
  else
    match (List.range max_lag).map (· + 1) with
    | [] => grangerSentinel
    | l :: ls =>
      let p_values := (l :: ls).map (fun lag => (lag, pOracle df lag))
      let best := argminP (l, pOracle df l) (ls.map (fun lag => (lag, pOracle df lag)))
      let best_lag := best.1
      let best_p_value := best.2
      let granger_score : ℚ :=
        if 0 < best_p_value then min (-(log10 best_p_value) / 2) 1 else 1
      ⟨best_lag, best_p_value, decide (best_p_value < 1/20), granger_score, p_values⟩

/-! ### Configuration (`config.py`) -/

/-- The configuration fields the evaluation core reads, with the
defaults of `config.py`. -/
structure Config where
  top_n : ℕ := 10
  forward_periods : List ℕ := [1, 12, 48, 288]
  weight_ic : ℚ := 3/10
  weight_ic_ir : ℚ := 1/4
  weight_hit_rate : ℚ := 1/5
  weight_lead_lag : ℚ := 3/20
  weight_granger : ℚ := 1/10
  rolling_window : ℕ := 288
  max_lag : ℕ := 48
  granger_max_lag : ℕ := 12
  granger_significance : ℚ := 1/20
  composite_threshold : ℚ := 0

/-! ### Composite scorer (`SignalEvaluator._calculate_composite_score`) -/

/-- The five weights read by the composite scorer (`config.weights`). -/
structure Weights where
  ic : ℚ
  ic_ir : ℚ
  hit_rate : ℚ
  lead_lag : ℚ
  granger : ℚ
deriving DecidableEq

/-- The weights mapping of a configuration. -/
def Config.weights (cfg : Config) : Weights :=
  ⟨cfg.weight_ic, cfg.weight_ic_ir, cfg.weight_hit_rate,
   cfg.weight_lead_lag, cfg.weight_granger⟩

/-- The sum of the five configured weights. -/
def sumWeights (w : Weights) : ℚ :=
  w.ic + w.ic_ir + w.hit_rate + w.lead_lag + w.granger

/-- The five metric fields `_calculate_composite_score` reads from the
metrics record; each is optional because any of them may be NaN in an
arbitrary record. -/
structure CompositeInput where
  best_spearman_ic : Option ℚ := none
  best_ic_ir : Option ℚ := none
  hit_rate : Option ℚ := none
  lead_lag_score : Option ℚ := none
  granger_score : Option ℚ := none
deriving DecidableEq

/-- IC component: NaN replaced by zero, then `min(abs(s) / 0.3, 1.0)`. -/
def component_ic (m : CompositeInput) : ℚ :=
  min (|m.best_spearman_ic.getD 0| / (3/10)) 1

/-- IC-IR component: NaN replaced by zero, then
`min(max(ic_ir, 0) / 2.0, 1.0)`. -/
def component_ic_ir (m : CompositeInput) : ℚ :=
  min (max (m.best_ic_ir.getD 0) 0 / 2) 1

/-- Hit rate component: NaN replaced by `0.5`, the effective hit rate
`max(h, 1 - h)` is formed, then transformed by `(eff - 0.5) * 2`. -/
def component_hit_rate (m : CompositeInput) : ℚ :=
  (max (m.hit_rate.getD (1/2)) (1 - m.hit_rate.getD (1/2)) - 1/2) * 2

/-- Lead-lag component: the score used as is, NaN replaced by zero. -/
def component_lead_lag (m : CompositeInput) : ℚ :=
  m.lead_lag_score.getD 0

/-- Granger component: the score used as is, NaN replaced by zero. -/
def component_granger (m : CompositeInput) : ℚ :=
  m.granger_score.getD 0

/-- `SignalEvaluator._calculate_composite_score`: the weighted sum of
the five components, with `weights.get(key, 0)` read from the five
configured weights. -/
def calculate_composite_score (w : Weights) (m : CompositeInput) : ℚ :=
  w.ic * component_ic m + w.ic_ir * component_ic_ir m
    + w.hit_rate * component_hit_rate m + w.lead_lag * component_lead_lag m
    + w.granger * component_granger m

/-! ### Signal evaluator (`evaluator.py`) -/

/-- The registered signals: an insertion ordered name to series mapping
(Python dict semantics; names are unique keys). -/
abbrev Signals := List (String × Series)

/-- `max(values, key=...)` over a nonempty list: the first element whose
key is maximal (Python `max` replaces the running best only on a
strictly greater key). -/
def pickBest (key : Option ℚ → ℚ) (x : Option ℚ) (xs : List (Option ℚ)) : Option ℚ :=
  xs.foldl (fun b a => if key b < key a then a else b) x

/-- The key used for the best Pearson and Spearman IC:
`abs(x) if not nan else 0`. -/
def absKey (x : Option ℚ) : ℚ :=
  match x with
  | some v => |v|
  | none => 0

/-- The key used for the best IC-IR: `x if not nan else -999`. -/
def irKey (x : Option ℚ) : ℚ :=
  match x with
  | some v => v
  | none => -999

/-- The aggregated metrics record of `evaluate_signal`.  The rolling
quality fields are not modelled: the composite scorer reads none of them
and no ranking column depends on them. -/
structure SignalMetrics where
  best_pearson_ic : Option ℚ
  best_spearman_ic : Option ℚ
  best_ic_ir : Option ℚ
  best_lag : ℤ
  lead_lag_correlation : Option ℚ
  lead_lag_score : ℚ
  hit_rate : Option ℚ
  hit_rate_bullish : Option ℚ
  hit_rate_bearish : Option ℚ
  total_signals : ℕ
  is_contrarian : Bool
  effective_hit_rate : ℚ
  granger_best_lag : ℕ
  granger_p_value : ℚ
  granger_significant : Bool
  granger_score : ℚ
deriving DecidableEq

/-- One row of the evaluation output. -/
structure EvalRow where
  signal_name : String
  composite_score : ℚ
  metrics : SignalMetrics
deriving DecidableEq

/-- All external statistical oracles an evaluation run depends on,
together with the numpy sorting kernel behind the pandas
`sort_values` default kind, which is likewise library code and is kept
abstract: pandas documents only that it sorts (and that solely the
mergesort and stable kinds are stable), so no stability is assumed. -/
structure Oracles where
  ic : ICOracles
  leadLagCorr : List (ℚ × ℚ) → Option ℚ
  grangerP : List (ℚ × ℚ) → ℕ → ℚ
  log10 : ℚ → ℚ
  sortKernel : List EvalRow → List EvalRow

/-- `SignalEvaluator.evaluate_signal`.  An unregistered name raises;
otherwise the per period IC results are computed (the by_period map is
modelled as a list, assuming the configured periods carry distinct
labels, as the defaults do), the three single shot metrics run once, the
best of period values are aggregated, and the composite score is
computed from the aggregated record.  An empty `forward_periods` makes
the Python `max` over the by_period values raise, and an all NaN
lead-lag correlation column raises inside `lead_lag_analysis`; both are
errors the caller of `evaluate_all` skips. -/
def evaluate_signal (o : Oracles) (cfg : Config) (price : List ℚ)
    (signals : Signals) (name : String) : Except String EvalRow :=
  match signals.lookup name with
  | none => .error ("Signal " ++ name ++ " not registered")
  | some signal =>
    let returns := pctChange price
    let icResults := cfg.forward_periods.map
      (fun p => calculate_ic o.ic signal returns p cfg.rolling_window)
    match icResults with
    | [] => .error "max over an empty by_period map"
    | r :: rs => do
      let leadLag ← lead_lag_analysis o.leadLagCorr signal price cfg.max_lag
      let hit := calculate_hit_rate signal returns 0
      let gr := granger_test o.grangerP o.log10 signal price cfg.granger_max_lag
      let best_pearson := pickBest absKey r.pearson_ic (rs.map (·.pearson_ic))
      let best_spearman := pickBest absKey r.spearman_ic (rs.map (·.spearman_ic))
      let best_ir := pickBest irKey r.ic_ir (rs.map (·.ic_ir))
      let metrics : SignalMetrics :=
        { best_pearson_ic := best_pearson
          best_spearman_ic := best_spearman
          best_ic_ir := best_ir
          best_lag := leadLag.best_lag
          lead_lag_correlation := leadLag.best_correlation
          lead_lag_score := leadLag.lead_lag_score
          hit_rate := hit.overall_hit_rate
          hit_rate_bullish := hit.hit_rate_bullish
          hit_rate_bearish := hit.hit_rate_bearish
          total_signals := hit.total_signals
          is_contrarian := is_contrarian hit.overall_hit_rate
          effective_hit_rate := effective_hit_rate hit.overall_hit_rate
          granger_best_lag := gr.best_lag
          granger_p_value := gr.best_p_value
          granger_significant := gr.significant
          granger_score := gr.granger_score }
      let composite := calculate_composite_score cfg.weights
        { best_spearman_ic := best_spearman
          best_ic_ir := best_ir
          hit_rate := hit.overall_hit_rate
          lead_lag_score := some leadLag.lead_lag_score
          granger_score := some gr.granger_score }
      .ok ⟨name, composite, metrics⟩

/-- The rows of the signals that evaluate without an exception, in
registration order (`evaluate_all` skips a failing signal and keeps
going). -/
def successfulRows (o : Oracles) (cfg : Config) (price : List ℚ)
    (signals : Signals) : List EvalRow :=
  signals.filterMap (fun nv => (evaluate_signal o cfg price signals nv.1).toOption)

/-- The contract pandas documents for the default sort kind: the kernel
returns its input rows in ascending composite score order (it is a
permutation).  Stability is deliberately not part of the contract:
pandas documents only the mergesort and stable kinds as stable. -/
def SortKernelOK (kernel : List EvalRow → List EvalRow) : Prop :=
  ∀ l : List EvalRow, (kernel l).Perm l
    ∧ (kernel l).Pairwise (fun a b => a.composite_score ≤ b.composite_score)

/-- `df.sort_values(composite_score, ascending=False)` with the default
sort kind.  Pandas `nargsort` reverses the rows, applies the ascending
numpy argsort and reverses the resulting indexer; the numpy kernel is
the oracle parameter. -/
def sortDesc (kernel : List EvalRow → List EvalRow)
    (rows : List EvalRow) : List EvalRow :=
  (kernel rows.reverse).reverse

/-- `SignalEvaluator.evaluate_all`: evaluate every registered signal,
skip failures, sort the survivors by composite score descending and
attach the rank column `1..N` by sort position. -/
def evaluate_all (o : Oracles) (cfg : Config) (price : List ℚ)
    (signals : Signals) : List (ℕ × EvalRow) :=
  let sorted := sortDesc o.sortKernel (successfulRows o cfg price signals)
  sorted.enum.map (fun p => (p.1 + 1, p.2))

/-- `SignalEvaluator.get_signal_data`: an unregistered name raises;
otherwise the frame of signal value, price and the per period forward
return columns, with every row containing a missing value dropped. -/
def get_signal_data (cfg : Config) (price : List ℚ) (signals : Signals)
    (name : String) : Except String (List (ℚ × ℚ × List ℚ)) :=
  match signals.lookup name with
  | none => .error ("Signal " ++ name ++ " not registered")
  | some signal =>
    let returns := pctChange price
    .ok ((List.range (max signal.length price.length)).filterMap (fun t =>
      match atIdx signal t, price.get? t with
      | some sv, some pv =>
        let frs := cfg.forward_periods.map (fun p => atIdx (shiftNeg p returns) t)
        if frs.all Option.isSome then some (sv, pv, frs.map (·.getD 0)) else none
      | _, _ => none))

/-- A concrete oracle bundle for instantiating universally quantified
theorems: every primitive returns a fixed simple value. -/
def trivialOracles : Oracles :=
  { ic := ⟨fun _ => none, fun _ => none, fun _ _ => [], fun _ => none⟩
    leadLagCorr := fun _ => none
    grangerP := fun _ _ => 1
    log10 := fun _ => 0
    sortKernel := fun l =>
      l.mergeSort (fun a b => decide (a.composite_score ≤ b.composite_score)) }

/-- The metrics record an empty signal series produces against an empty
price series: every estimator returns its insufficient data sentinel. -/
def emptyEvalMetrics : SignalMetrics :=
  { best_pearson_ic := none
    best_spearman_ic := none
    best_ic_ir := none
    best_lag := 0
    lead_lag_correlation := none
    lead_lag_score := 0
    hit_rate := none
    hit_rate_bullish := none
    hit_rate_bearish := none
    total_signals := 0
    is_contrarian := false
    effective_hit_rate := 1/2
    granger_best_lag := 0
    granger_p_value := 1
    granger_significant := false
    granger_score := 0 }

/-- Seventeen registered signals with empty series: one more row than
the numpy insertion sort cutoff, and every one evaluates to the same
composite score. -/
def demoSignals : Signals :=
  [("a", []), ("b", []), ("c", []), ("d", []), ("e", []), ("f", []),
   ("g", []), ("h", []), ("i", []), ("j", []), ("k", []), ("l", []),
   ("m", []), ("n", []), ("o", []), ("p", []), ("q", [])]

/-- A sort kernel meeting the documented contract of the default kind
that also agrees with the real numpy kernel below its insertion sort
cutoff of sixteen elements, where introsort insertion sorts (stably);
above the cutoff it merge sorts the reversed rows, which still sorts
ascending but visits equal keys in reversed input order. -/
def cutoffKernel (l : List EvalRow) : List EvalRow :=
  if l.length ≤ 16 then
    l.mergeSort (fun a b => decide (a.composite_score ≤ b.composite_score))
  else
    l.reverse.mergeSort (fun a b => decide (a.composite_score ≤ b.composite_score))

/-! ## Theorems -/

/-- C7: with fewer than `rolling_window` aligned non missing rows,
`calculate_ic` returns NaN for `pearson_ic`, `spearman_ic` and `ic_ir`,
with an empty rolling IC series; the function is total, so no exception
is possible. -/
theorem calculate_ic_insufficient_data (o : ICOracles)
    (signal forward_returns : Series) (periods rolling_window : ℕ)
    (h : (icAligned signal forward_returns periods).length < rolling_window) :
    calculate_ic o signal forward_returns periods rolling_window
      = ⟨none, none, none, none, none, []⟩ := by
  simp [calculate_ic, h]

/-- Witness for C7 at a concrete short input. -/
theorem calculate_ic_insufficient_data_witness :
    (icAligned [] [] 1).length < 1
    ∧ calculate_ic ⟨fun _ => none, fun _ => none, fun _ _ => [], fun _ => none⟩
        [] [] 1 1 = ⟨none, none, none, none, none, []⟩ :=
  ⟨by decide, calculate_ic_insufficient_data _ _ _ _ _ (by decide)⟩

/-- C10: a name that is not registered makes both
`SignalEvaluator.evaluate_signal` and `SignalEvaluator.get_signal_data`
raise a `ValueError` naming the missing signal, rather than produce a
result or a sentinel. -/
theorem unregistered_signal_rejected (o : Oracles) (cfg : Config)
    (price : List ℚ) (signals : Signals) (name : String)
    (h : signals.lookup name = none) :
    evaluate_signal o cfg price signals name
      = .error ("Signal " ++ name ++ " not registered")
    ∧ get_signal_data cfg price signals name
      = .error ("Signal " ++ name ++ " not registered") := by
  constructor
  · simp [evaluate_signal, h]
  · simp [get_signal_data, h]

/-- Witness for C10 at a concrete unregistered name. -/
theorem unregistered_signal_rejected_witness :
    ([] : Signals).lookup "vol_ratio" = none
    ∧ evaluate_signal trivialOracles {} [] [] "vol_ratio"
        = .error ("Signal " ++ "vol_ratio" ++ " not registered") :=
  ⟨rfl, (unregistered_signal_rejected trivialOracles {} [] [] "vol_ratio" rfl).1⟩

/-- C2 (code bug): `calculate_ic` aligns the signal at time `t` with
`returns.shift(-periods)`, whose value is the one period return realized
between `t + periods - 1` and `t + periods`, not the realized return of
the price from `t` to `t + periods` that the comment above the shift and
the spec describe.  At price `[1, 2, 4]` with `periods = 2` the shifted
series holds `1` at `t = 0`, while the realized return from `t = 0` to
`t = 2` is `3`. -/
theorem forward_return_alignment_bug :
    atIdx (fwdReturns (pctChange [(1 : ℚ), 2, 4]) 2) 0 = some 1
    ∧ specRealizedReturn [(1 : ℚ), 2, 4] 2 0 = some 3
    ∧ (some (1 : ℚ)) ≠ (some (3 : ℚ)) := by
  refine ⟨?_, ?_, by norm_num⟩
  · norm_num [atIdx, fwdReturns, shiftNeg, pctChange, List.range_succ]
  · norm_num [specRealizedReturn]

/-- C9: the evaluation pipeline is a pure function of the price series,
the registered signals, the configuration and the statistical oracles,
so two runs on identical inputs produce the identical ranking table and
identical per signal composite scores. -/
theorem evaluation_deterministic (o o' : Oracles) (cfg cfg' : Config)
    (price price' : List ℚ) (signals signals' : Signals)
    (ho : o = o') (hc : cfg = cfg') (hp : price = price')
    (hs : signals = signals') :
    evaluate_all o cfg price signals = evaluate_all o' cfg' price' signals'
    ∧ (successfulRows o cfg price signals).map (fun r => r.composite_score)
        = (successfulRows o' cfg' price' signals').map (fun r => r.composite_score) := by
  subst ho hc hp hs
  exact ⟨rfl, rfl⟩

/-- Witness for C9 at a concrete input evaluated twice. -/
theorem evaluation_deterministic_witness :
    evaluate_all trivialOracles {} [1, 2] [("s", [some 1, some 2])]
      = evaluate_all trivialOracles {} [1, 2] [("s", [some 1, some 2])] :=
  (evaluation_deterministic trivialOracles trivialOracles {} {} [1, 2] [1, 2]
    [("s", [some 1, some 2])] [("s", [some 1, some 2])] rfl rfl rfl rfl).1

/-- C1 (counterexample): `_calculate_composite_score` does not clip the
lead-lag (nor granger, nor hit rate) input into `[0, 1]`; a metrics
record with `lead_lag_score = 3` and all weight on the lead-lag key
produces a composite score of `3`, outside `[0, sum of the weights] = [0, 1]`. -/
theorem composite_score_unclipped_counterexample :
    calculate_composite_score ⟨0, 0, 0, 1, 0⟩ { lead_lag_score := some 3 } = 3
    ∧ sumWeights ⟨0, 0, 0, 1, 0⟩ = 1
    ∧ ¬ ((3 : ℚ) ≤ 1) := by
  refine ⟨?_, by norm_num [sumWeights], by norm_num⟩
  norm_num [calculate_composite_score, component_ic, component_ic_ir,
    component_hit_rate, component_lead_lag, component_granger]

/-- C1 (amended): for every weights mapping with non negative values and
every metrics record whose `hit_rate`, `lead_lag_score` and
`granger_score` fields are each NaN or already inside `[0, 1]` (as the
metric producers guarantee), the composite score is the weighted sum of
five components that each lie in `[0, 1]` (NaN inputs contributing `0`),
and the score therefore lies in `[0, sum of the weights]`; it is a plain
rational, never NaN. -/
theorem composite_score_bounded_of_inrange (w : Weights) (m : CompositeInput)
    (hw : 0 ≤ w.ic ∧ 0 ≤ w.ic_ir ∧ 0 ≤ w.hit_rate ∧ 0 ≤ w.lead_lag ∧ 0 ≤ w.granger)
    (hhr : ∀ x ∈ m.hit_rate, 0 ≤ x ∧ x ≤ 1)
    (hll : ∀ x ∈ m.lead_lag_score, 0 ≤ x ∧ x ≤ 1)
    (hgr : ∀ x ∈ m.granger_score, 0 ≤ x ∧ x ≤ 1) :
    (0 ≤ component_ic m ∧ component_ic m ≤ 1)
    ∧ (0 ≤ component_ic_ir m ∧ component_ic_ir m ≤ 1)
    ∧ (0 ≤ component_hit_rate m ∧ component_hit_rate m ≤ 1)
    ∧ (0 ≤ component_lead_lag m ∧ component_lead_lag m ≤ 1)
    ∧ (0 ≤ component_granger m ∧ component_granger m ≤ 1)
    ∧ calculate_composite_score w m
        = w.ic * component_ic m + w.ic_ir * component_ic_ir m
          + w.hit_rate * component_hit_rate m + w.lead_lag * component_lead_lag m
          + w.granger * component_granger m
    ∧ 0 ≤ calculate_composite_score w m
    ∧ calculate_composite_score w m ≤ sumWeights w := by
  obtain ⟨hw1, hw2, hw3, hw4, hw5⟩ := hw
  have hic : 0 ≤ component_ic m ∧ component_ic m ≤ 1 := by
    unfold component_ic
    constructor
    · exact le_min (by positivity) (by norm_num)
    · exact min_le_right _ _
  have hicir : 0 ≤ component_ic_ir m ∧ component_ic_ir m ≤ 1 := by
    unfold component_ic_ir
    constructor
    · exact le_min (by positivity) (by norm_num)
    · exact min_le_right _ _
  have hhr' : 0 ≤ component_hit_rate m ∧ component_hit_rate m ≤ 1 := by
    unfold component_hit_rate
    rcases hm : m.hit_rate with _ | x
    · norm_num
    · have hx := hhr x (by rw [hm]; rfl)
      simp only [Option.getD_some]
      constructor
      · nlinarith [le_max_left x (1 - x), le_max_right x (1 - x)]
      · rcases max_cases x (1 - x) with ⟨h, _⟩ | ⟨h, _⟩ <;> rw [h] <;> nlinarith [hx.1, hx.2]
  have hll' : 0 ≤ component_lead_lag m ∧ component_lead_lag m ≤ 1 := by
    unfold component_lead_lag
    rcases hm : m.lead_lag_score with _ | x
    · norm_num
    · have hx := hll x (by rw [hm]; rfl)
      simpa using hx
  have hgr' : 0 ≤ component_granger m ∧ component_granger m ≤ 1 := by
    unfold component_granger
    rcases hm : m.granger_score with _ | x
    · norm_num
    · have hx := hgr x (by rw [hm]; rfl)
      simpa using hx
  refine ⟨hic, hicir, hhr', hll', hgr', rfl, ?_, ?_⟩
  · unfold calculate_composite_score
    have := mul_nonneg hw1 hic.1
    have := mul_nonneg hw2 hicir.1
    have := mul_nonneg hw3 hhr'.1
    have := mul_nonneg hw4 hll'.1
    have := mul_nonneg hw5 hgr'.1
    linarith
  · unfold calculate_composite_score sumWeights
    have h1 : w.ic * component_ic m ≤ w.ic := by nlinarith [hic.1, hic.2]
    have h2 : w.ic_ir * component_ic_ir m ≤ w.ic_ir := by nlinarith [hicir.1, hicir.2]
    have h3 : w.hit_rate * component_hit_rate m ≤ w.hit_rate := by nlinarith [hhr'.1, hhr'.2]
    have h4 : w.lead_lag * component_lead_lag m ≤ w.lead_lag := by nlinarith [hll'.1, hll'.2]
    have h5 : w.granger * component_granger m ≤ w.granger := by nlinarith [hgr'.1, hgr'.2]
    linarith

/-- Witness for C1 at the default weights and a concrete in range
metrics record. -/
theorem composite_score_bounded_witness :
    0 ≤ calculate_composite_score ⟨3/10, 1/4, 1/5, 3/20, 1/10⟩
        ⟨some (1/10), some 1, some (3/5), some (1/2), some (1/4)⟩
    ∧ calculate_composite_score ⟨3/10, 1/4, 1/5, 3/20, 1/10⟩
        ⟨some (1/10), some 1, some (3/5), some (1/2), some (1/4)⟩
      ≤ sumWeights ⟨3/10, 1/4, 1/5, 3/20, 1/10⟩ := by
  have h := composite_score_bounded_of_inrange ⟨3/10, 1/4, 1/5, 3/20, 1/10⟩
    ⟨some (1/10), some 1, some (3/5), some (1/2), some (1/4)⟩
    (by norm_num)
    (by intro x hx; rw [Option.mem_def, Option.some_inj] at hx; subst hx; norm_num)
    (by intro x hx; rw [Option.mem_def, Option.some_inj] at hx; subst hx; norm_num)
    (by intro x hx; rw [Option.mem_def, Option.some_inj] at hx; subst hx; norm_num)
  exact ⟨h.2.2.2.2.2.2.1, h.2.2.2.2.2.2.2⟩

/-- C5 (counterexample): a constant signal against a constant price has
signal direction `0` and next period return sign `0` at every aligned
point, so the direction is the exact negation of the return sign
(`0 = -0`) on all eleven aligned points, yet every prediction counts as
correct: the hit rate is `1.0` and the signal is not flagged
contrarian. -/
theorem contrarian_zero_direction_counterexample :
    (∀ r ∈ alignedDirs
        [some (1 : ℚ), some 1, some 1, some 1, some 1, some 1, some 1,
          some 1, some 1, some 1, some 1, some 1, some 1]
        (pctChange [(1 : ℚ), 1, 1, 1, 1, 1, 1, 1, 1, 1, 1, 1, 1]), r.1 = -r.2.1)
    ∧ 10 ≤ (alignedDirs
        [some (1 : ℚ), some 1, some 1, some 1, some 1, some 1, some 1,
          some 1, some 1, some 1, some 1, some 1, some 1]
        (pctChange [(1 : ℚ), 1, 1, 1, 1, 1, 1, 1, 1, 1, 1, 1, 1])).length
    ∧ (calculate_hit_rate
        [some (1 : ℚ), some 1, some 1, some 1, some 1, some 1, some 1,
          some 1, some 1, some 1, some 1, some 1, some 1]
        (pctChange [(1 : ℚ), 1, 1, 1, 1, 1, 1, 1, 1, 1, 1, 1, 1]) 0).overall_hit_rate
      = some 1
    ∧ is_contrarian ((calculate_hit_rate
        [some (1 : ℚ), some 1, some 1, some 1, some 1, some 1, some 1,
          some 1, some 1, some 1, some 1, some 1, some 1]
        (pctChange [(1 : ℚ), 1, 1, 1, 1, 1, 1, 1, 1, 1, 1, 1, 1]) 0).overall_hit_rate)
      = false := by
  have halign : alignedDirs
      [some (1 : ℚ), some 1, some 1, some 1, some 1, some 1, some 1,
        some 1, some 1, some 1, some 1, some 1, some 1]
      (pctChange [(1 : ℚ), 1, 1, 1, 1, 1, 1, 1, 1, 1, 1, 1, 1])
      = [((0 : ℚ), (0 : ℚ), some (0 : ℚ)), (0, 0, some 0), (0, 0, some 0),
          (0, 0, some 0), (0, 0, some 0), (0, 0, some 0), (0, 0, some 0),
          (0, 0, some 0), (0, 0, some 0), (0, 0, some 0), (0, 0, some 0)] := by
    norm_num [alignedDirs, dirRows, signSeries, diffSeries, shiftNeg, pctChange, qsign]
  refine ⟨?_, ?_, ?_, ?_⟩
  · rw [halign]; norm_num
  · rw [halign]; norm_num
  · norm_num [calculate_hit_rate, halign]
  · norm_num [calculate_hit_rate, halign, is_contrarian]

/-- C5 (amended): for every signal whose period over period direction is
the exact nonzero negation of the next period return sign on every
aligned point, with at least ten aligned points, `calculate_hit_rate`
reports a hit rate of `0.0`, the evaluator flags the signal contrarian
and the effective hit rate is `1.0`. -/
theorem perfect_contrarian_detected (signal returns : Series)
    (h10 : 10 ≤ (alignedDirs signal returns).length)
    (hneg : ∀ r ∈ alignedDirs signal returns, r.1 = -r.2.1 ∧ r.2.1 ≠ 0) :
    (calculate_hit_rate signal returns 0).overall_hit_rate = some 0
    ∧ is_contrarian ((calculate_hit_rate signal returns 0).overall_hit_rate) = true
    ∧ effective_hit_rate ((calculate_hit_rate signal returns 0).overall_hit_rate) = 1 := by
  have hfilter : (alignedDirs signal returns).filter
      (fun r => decide (r.1 = r.2.1)) = [] := by
    rw [List.filter_eq_nil_iff]
    intro r hr
    obtain ⟨h1, h2⟩ := hneg r hr
    simp only [decide_eq_true_eq]
    intro heq
    exact h2 (by linarith)
  have hhr : (calculate_hit_rate signal returns 0).overall_hit_rate = some 0 := by
    unfold calculate_hit_rate
    rw [if_neg (by omega)]
    simp only [lt_irrefl, if_false, hfilter]
    rw [if_pos (by omega)]
    norm_num
  refine ⟨hhr, ?_, ?_⟩
  · rw [hhr]
    norm_num [is_contrarian]
  · rw [hhr]
    norm_num [effective_hit_rate]

/-- Witness for C5: a signal alternating down into odd indices and up
into even ones against a price alternating the other way, a perfect
anti predictor on eleven aligned points. -/
theorem perfect_contrarian_detected_witness :
    (calculate_hit_rate
      [some (1 : ℚ), some 0, some 1, some 0, some 1, some 0, some 1,
        some 0, some 1, some 0, some 1, some 0, some 1]
      (pctChange [(2 : ℚ), 1, 2, 1, 2, 1, 2, 1, 2, 1, 2, 1, 2]) 0).overall_hit_rate
      = some 0
    ∧ is_contrarian ((calculate_hit_rate
      [some (1 : ℚ), some 0, some 1, some 0, some 1, some 0, some 1,
        some 0, some 1, some 0, some 1, some 0, some 1]
      (pctChange [(2 : ℚ), 1, 2, 1, 2, 1, 2, 1, 2, 1, 2, 1, 2]) 0).overall_hit_rate)
      = true
    ∧ effective_hit_rate ((calculate_hit_rate
      [some (1 : ℚ), some 0, some 1, some 0, some 1, some 0, some 1,
        some 0, some 1, some 0, some 1, some 0, some 1]
      (pctChange [(2 : ℚ), 1, 2, 1, 2, 1, 2, 1, 2, 1, 2, 1, 2]) 0).overall_hit_rate)
      = 1 := by
  have halign : alignedDirs
      [some (1 : ℚ), some 0, some 1, some 0, some 1, some 0, some 1,
        some 0, some 1, some 0, some 1, some 0, some 1]
      (pctChange [(2 : ℚ), 1, 2, 1, 2, 1, 2, 1, 2, 1, 2, 1, 2])
      = [((-1 : ℚ), (1 : ℚ), some (1 : ℚ)), (1, -1, some (-1/2)), (-1, 1, some 1),
          (1, -1, some (-1/2)), (-1, 1, some 1), (1, -1, some (-1/2)), (-1, 1, some 1),
          (1, -1, some (-1/2)), (-1, 1, some 1), (1, -1, some (-1/2)), (-1, 1, some 1)] := by
    norm_num [alignedDirs, dirRows, signSeries, diffSeries, shiftNeg, pctChange, qsign]
  exact perfect_contrarian_detected _ _ (by rw [halign]; norm_num)
    (by rw [halign]; norm_num)

/-- C4 (counterexample): the `significant` flag of `granger_test`
compares the best p-value against the literal `0.05`; with
`granger_significance` configured to `0.5` and a best p-value of `0.2`
the claim demands a significant result (`0.2 < 0.5`), but the code
reports insignificant. -/
theorem granger_significance_config_ignored_counterexample :
    (granger_test (fun _ _ => 1/5) (fun _ => 0)
        [some 1, some 2, some 3, some 4] [(1 : ℚ), 2, 4, 8]
        ({ granger_max_lag := 1, granger_significance := 1/2 } : Config).granger_max_lag).significant
      = false
    ∧ (granger_test (fun _ _ => 1/5) (fun _ => 0)
        [some 1, some 2, some 3, some 4] [(1 : ℚ), 2, 4, 8]
        ({ granger_max_lag := 1, granger_significance := 1/2 } : Config).granger_max_lag).best_p_value
      < ({ granger_max_lag := 1, granger_significance := 1/2 } : Config).granger_significance := by
  constructor
  · norm_num [granger_test, grangerAligned, align2, pctChange, argminP,
      grangerSentinel, List.range_succ]
  · norm_num [granger_test, grangerAligned, align2, pctChange, argminP,
      grangerSentinel, List.range_succ]

/-- C4 (amended): for every input and every oracle, the `significant`
flag of `granger_test` equals `best_p_value < 0.05` with the cutoff
hardcoded; the configured `granger_significance` is never passed in, so
changing it cannot change the decision. -/
theorem granger_significant_hardcoded (pOracle : List (ℚ × ℚ) → ℕ → ℚ)
    (log10 : ℚ → ℚ) (indicator : Series) (price : List ℚ) (max_lag : ℕ) :
    (granger_test pOracle log10 indicator price max_lag).significant
      = decide ((granger_test pOracle log10 indicator price max_lag).best_p_value
          < 1/20) := by
  simp only [granger_test]
  split <;> try split
  all_goals first
  | rfl
  | norm_num [grangerSentinel]

/-- C8 (counterexample): when the oracle returns a p-value of `0`, the
guarded branch of the score transform yields a granger score of `1.0`,
not the `0` the claim states. -/
theorem granger_guard_counterexample :
    (granger_test (fun _ _ => 0) (fun _ => 5)
        [some 1, some 2, some 3, some 4] [(1 : ℚ), 2, 4, 8] 1).best_p_value = 0
    ∧ (granger_test (fun _ _ => 0) (fun _ => 5)
        [some 1, some 2, some 3, some 4] [(1 : ℚ), 2, 4, 8] 1).granger_score = 1
    ∧ (1 : ℚ) ≠ 0 := by
  refine ⟨?_, ?_, by norm_num⟩
  · norm_num [granger_test, grangerAligned, align2, pctChange, argminP,
      grangerSentinel, List.range_succ]
  · norm_num [granger_test, grangerAligned, align2, pctChange, argminP,
      grangerSentinel, List.range_succ]

/-- C8 (amended): for every causality run that selects a best p-value,
the granger score equals `min(-log10(best_p_value) / 2, 1.0)` when the
best p-value is positive, and equals `1.0` in the guarded branch for a
non positive p-value; `log10` is only ever applied under the positivity
guard. -/
theorem granger_score_formula (pOracle : List (ℚ × ℚ) → ℕ → ℚ)
    (log10 : ℚ → ℚ) (indicator : Series) (price : List ℚ) (max_lag : ℕ)
    (hdata : max_lag * 3 ≤ (grangerAligned indicator price).length)
    (hlag : 1 ≤ max_lag) :
    (0 < (granger_test pOracle log10 indicator price max_lag).best_p_value →
      (granger_test pOracle log10 indicator price max_lag).granger_score
        = min (-(log10 ((granger_test pOracle log10 indicator price
            max_lag).best_p_value)) / 2) 1)
    ∧ ((granger_test pOracle log10 indicator price max_lag).best_p_value ≤ 0 →
      (granger_test pOracle log10 indicator price max_lag).granger_score = 1) := by
  obtain ⟨n, rfl⟩ : ∃ n, max_lag = n + 1 := ⟨max_lag - 1, by omega⟩
  unfold granger_test
  rw [if_neg (by omega), List.range_succ_eq_map]
  simp only [List.map_cons]
  constructor
  · intro h
    rw [if_pos h]
  · intro h
    rw [if_neg (not_lt.mpr h)]

/-- Witness for C8 at a concrete positive p-value. -/
theorem granger_score_formula_witness :
    (granger_test (fun _ _ => 1/100) (fun q => q - 2)
        [some 1, some 2, some 3, some 4] [(1 : ℚ), 2, 4, 8] 1).granger_score
      = min (-((1/100 : ℚ) - 2) / 2) 1 := by
  have hbp : (granger_test (fun _ _ => 1/100) (fun q => q - 2)
      [some 1, some 2, some 3, some 4] [(1 : ℚ), 2, 4, 8] 1).best_p_value = 1/100 := by
    norm_num [granger_test, grangerAligned, align2, pctChange, argminP,
      grangerSentinel, List.range_succ]
  have h := (granger_score_formula (fun _ _ => 1/100) (fun q => q - 2)
      [some 1, some 2, some 3, some 4] [(1 : ℚ), 2, 4, 8] 1
      (by norm_num [grangerAligned, align2, pctChange])
      (by norm_num)).1 (by rw [hbp]; norm_num)
  rw [hbp] at h
  exact h

/-- C6: with fewer than `2 * max_lag` aligned observations
`lead_lag_analysis` returns the insufficient data sentinel; otherwise,
whenever the scan selects a best lag and correlation, the lead-lag score
is `min(1, c * (1 + best_lag / max_lag) / 2)` for a positive best lag,
`min(1, c * 0.3)` for a zero best lag and `min(1, c * 0.1)` for a
negative best lag, writing `c` for the absolute best correlation. -/
theorem lead_lag_score_branches (corrFn : List (ℚ × ℚ) → Option ℚ)
    (indicator : Series) (price : List ℚ) (max_lag : ℕ) :
    ((leadLagAligned indicator price).length < 2 * max_lag →
      lead_lag_analysis corrFn indicator price max_lag = .ok ⟨0, none, 0, []⟩)
    ∧ (∀ bl bc, 2 * max_lag ≤ (leadLagAligned indicator price).length →
        selectBestAbs (leadLagCorrs corrFn indicator price max_lag) = some (bl, bc) →
        lead_lag_analysis corrFn indicator price max_lag = .ok
          ⟨bl, some bc,
            (if 0 < bl then min 1 (|bc| * (1 + (bl : ℚ) / (max_lag : ℚ)) / 2)
             else if bl = 0 then min 1 (|bc| * (3/10))
             else min 1 (|bc| * (1/10))),
            leadLagCorrs corrFn indicator price max_lag⟩) := by
  constructor
  · intro h
    simp only [lead_lag_analysis]
    rw [if_pos (by omega)]
  · intro bl bc hlen hsel
    simp only [lead_lag_analysis]
    rw [if_neg (by omega), hsel]
    dsimp only
    split_ifs <;> rw [min_comm]

/-- Witness for C6 at a concrete input whose best lag is zero. -/
theorem lead_lag_score_branches_witness :
    lead_lag_analysis (fun l => some ((l.length : ℚ) / 10))
        [some 1, some 2, some 1, some 3] [(1 : ℚ), 2, 3, 4] 1
      = .ok
          ⟨0, some (3/10),
            (if (0 : ℤ) < 0 then
              min 1 (|(3/10 : ℚ)| * (1 + ((0 : ℤ) : ℚ) / ((1 : ℕ) : ℚ)) / 2)
             else if (0 : ℤ) = 0 then min 1 (|(3/10 : ℚ)| * (3/10))
             else min 1 (|(3/10 : ℚ)| * (1/10))),
            leadLagCorrs (fun l => some ((l.length : ℚ) / 10))
              [some 1, some 2, some 1, some 3] [(1 : ℚ), 2, 3, 4] 1⟩ :=
  (lead_lag_score_branches (fun l => some ((l.length : ℚ) / 10))
      [some 1, some 2, some 1, some 3] [(1 : ℚ), 2, 3, 4] 1).2 0 (3/10)
    (by norm_num [leadLagAligned, align2, pctChange])
    (by
      have hcorrs : leadLagCorrs (fun l => some ((l.length : ℚ) / 10))
          [some 1, some 2, some 1, some 3] [(1 : ℚ), 2, 3, 4] 1
          = [(-1, some (1/5)), (0, some (3/10)), (1, some (1/5))] := by
        norm_num [leadLagCorrs, leadLagAligned, align2, pctChange, pairsAtLag,
          List.range_succ, show ((2 : ℤ).toNat) = 2 from rfl,
          show ((1 : ℤ).toNat) = 1 from rfl, show ((0 : ℤ).toNat) = 0 from rfl]
      rw [hcorrs]
      norm_num [selectBestAbs, abs_of_pos])

/-- The ranking comparator is transitive. -/
theorem rowle_trans (a b c : EvalRow) :
    (fun a b : EvalRow => decide (a.composite_score ≤ b.composite_score)) a b = true →
    (fun a b : EvalRow => decide (a.composite_score ≤ b.composite_score)) b c = true →
    (fun a b : EvalRow => decide (a.composite_score ≤ b.composite_score)) a c = true := by
  simp only [decide_eq_true_eq]
  exact le_trans

/-- The ranking comparator is total. -/
theorem rowle_total (a b : EvalRow) :
    ((fun a b : EvalRow => decide (a.composite_score ≤ b.composite_score)) a b
      || (fun a b : EvalRow => decide (a.composite_score ≤ b.composite_score)) b a) = true := by
  simp only [Bool.or_eq_true, decide_eq_true_eq]
  exact le_total _ _


/-- A filter map whose function succeeds on every element is a map. -/
theorem filterMap_eq_map_of_forall {α β : Type} (f : α → Option β) (g : α → β) :
    ∀ l : List α, (∀ a ∈ l, f a = some (g a)) → l.filterMap f = l.map g
  | [], _ => rfl
  | a :: l, h => by
    rw [List.filterMap_cons, h a (List.mem_cons_self a l),
      filterMap_eq_map_of_forall f g l (fun b hb => h b (List.mem_cons_of_mem a hb)),
      List.map_cons]

/-- Evaluating a registered empty signal series against an empty price
series under the default configuration: every estimator takes its
insufficient data branch and the composite score is zero. -/
theorem evaluate_signal_empty (o : Oracles) (signals : Signals) (name : String)
    (h : signals.lookup name = some ([] : Series)) :
    evaluate_signal o {} [] signals name = .ok ⟨name, 0, emptyEvalMetrics⟩ := by
  norm_num [evaluate_signal, h, calculate_ic, icAligned, align2, fwdReturns,
    shiftNeg, pctChange, lead_lag_analysis, leadLagAligned, calculate_hit_rate,
    alignedDirs, dirRows, signSeries, diffSeries, granger_test, grangerAligned,
    grangerSentinel, pickBest, absKey, irKey, is_contrarian, effective_hit_rate,
    calculate_composite_score, component_ic, component_ic_ir, component_hit_rate,
    component_lead_lag, component_granger, Config.weights, emptyEvalMetrics,
    Except.bind, Except.instMonad]

/-- The cutoff kernel satisfies everything pandas documents about the
default sort kind: it sorts ascending and permutes its input. -/
theorem cutoffKernel_ok : SortKernelOK cutoffKernel := by
  intro l
  unfold cutoffKernel
  split
  · exact ⟨List.mergeSort_perm l _,
      (List.sorted_mergeSort rowle_trans rowle_total l).imp
        (fun hab => by simpa using hab)⟩
  · exact ⟨(List.mergeSort_perm l.reverse _).trans l.reverse_perm,
      (List.sorted_mergeSort rowle_trans rowle_total l.reverse).imp
        (fun hab => by simpa using hab)⟩

/-- C3 (code bug): `evaluate_all` sorts through the pandas
`sort_values` default kind, whose documented contract (ascending order,
a permutation) does not include stability.  Under a kernel meeting that
contract — one agreeing with the real numpy kernel below its sixteen
element insertion sort cutoff, where introsort insertion sorts stably —
seventeen registered signals that all evaluate to composite score zero
come out of `evaluate_all` in reversed registration order, so the
claimed tie order is not guaranteed by the code. -/
theorem ranking_tie_order_not_guaranteed :
    SortKernelOK cutoffKernel
    ∧ (∀ r ∈ successfulRows { trivialOracles with sortKernel := cutoffKernel }
        {} [] demoSignals, r.composite_score = 0)
    ∧ (evaluate_all { trivialOracles with sortKernel := cutoffKernel }
          {} [] demoSignals).map (fun p => p.2.signal_name)
        = (demoSignals.map Prod.fst).reverse
    ∧ (demoSignals.map Prod.fst).reverse ≠ demoSignals.map Prod.fst := by
  have hall : ∀ nv ∈ demoSignals, demoSignals.lookup nv.1 = some ([] : Series) := by
    decide
  have hrows : successfulRows { trivialOracles with sortKernel := cutoffKernel }
      {} [] demoSignals
      = demoSignals.map (fun nv => (⟨nv.1, 0, emptyEvalMetrics⟩ : EvalRow)) := by
    unfold successfulRows
    exact filterMap_eq_map_of_forall _ _ _ (fun nv hnv => by
      rw [evaluate_signal_empty _ _ _ (hall nv hnv)]
      rfl)
  have hpw : (demoSignals.map (fun nv =>
      (⟨nv.1, 0, emptyEvalMetrics⟩ : EvalRow))).Pairwise
      (fun a b => (decide (a.composite_score ≤ b.composite_score)) = true) := by
    apply List.pairwise_of_forall_mem_list
    intro a ha b hb
    obtain ⟨nva, _, rfl⟩ := List.mem_map.mp ha
    obtain ⟨nvb, _, rfl⟩ := List.mem_map.mp hb
    simp
  have hk : ({ trivialOracles with sortKernel := cutoffKernel } : Oracles).sortKernel
      = cutoffKernel := rfl
  have hsort : sortDesc cutoffKernel (successfulRows
      { trivialOracles with sortKernel := cutoffKernel } {} [] demoSignals)
      = (successfulRows { trivialOracles with sortKernel := cutoffKernel }
          {} [] demoSignals).reverse := by
    rw [hrows]
    unfold sortDesc cutoffKernel
    rw [if_neg (by norm_num [demoSignals]), List.reverse_reverse,
      List.mergeSort_of_sorted hpw]
  refine ⟨cutoffKernel_ok, ?_, ?_, by decide⟩
  · rw [hrows]
    intro r hr
    obtain ⟨nv, _, rfl⟩ := List.mem_map.mp hr
    rfl
  · unfold evaluate_all
    rw [hk, List.map_map,
      show ((fun p : ℕ × EvalRow => p.2.signal_name)
          ∘ fun p : ℕ × EvalRow => (p.1 + 1, p.2))
        = ((fun r : EvalRow => r.signal_name) ∘ Prod.snd) from rfl,
      ← List.map_map, List.enum_map_snd, hsort, hrows, List.map_reverse,
      List.map_map]
    rfl

end SignalEval
